import Mathlib

/-!
# Verification of the `voice` conference-server core

Shallow embedding of `src/voice/src/audio.rs` (the per-room audio mixer)
and of the WebSocket handler layer of `src/voice/src/lib.rs`.

Modelling conventions:
* Rust `HashMap`/`HashSet` become association lists (`List (String × α)` /
  `List Nat`) with deterministic iteration order; only per-key facts are
  claimed, so the order is irrelevant to the statements.
* `f32` samples become `ℚ` (exact arithmetic over the same formulas);
  `i16`/`u32`/`u64` become `Int`/`Nat` with explicit `% 2 ^ 32` / `% 2 ^ 64`
  where wrapping matters.
* The external Opus codec (`opus` crate) and the `ogg` crate's
  `PacketWriter` are abstracted as parameters (`OpusModel`): the claims under
  study quantify over their behaviour or do not depend on it.
* `Instant::now()` becomes an explicit `now : Nat` argument.
-/

/-! ## Association list helpers (HashMap model) -/

/-- Lookup in an association list (first matching key wins). -/
def alookup {α : Type} : List (String × α) → String → Option α
  | [], _ => none
  | (k, v) :: r, q => if k = q then some v else alookup r q

/-- Embeds `HashMap::get_mut` style update: modify the value only if the key is present. -/
def aupdate {α : Type} : List (String × α) → String → α → List (String × α)
  | [], _, _ => []
  | (a, b) :: r, k, v => if a = k then (k, v) :: aupdate r k v else (a, b) :: aupdate r k v

/-- Embeds `HashMap::insert`: replace the value if present, otherwise append the entry. -/
def ainsert {α : Type} (l : List (String × α)) (k : String) (v : α) : List (String × α) :=
  if (alookup l k).isSome then aupdate l k v else l ++ [(k, v)]

/-- Embeds `HashMap::remove`. -/
def aremove {α : Type} : List (String × α) → String → List (String × α)
  | [], _ => []
  | (a, b) :: r, k => if a = k then aremove r k else (a, b) :: aremove r k

/-- Channel-keyed (`u32`) association list lookup. -/
def clookup {α : Type} : List (Nat × α) → Nat → Option α
  | [], _ => none
  | (k, v) :: r, q => if k = q then some v else clookup r q

/-- Channel-keyed `get_mut` update. -/
def cupdate {α : Type} : List (Nat × α) → Nat → α → List (Nat × α)
  | [], _, _ => []
  | (a, b) :: r, k, v => if a = k then (k, v) :: cupdate r k v else (a, b) :: cupdate r k v

/-- Channel-keyed insert. -/
def cinsert {α : Type} (l : List (Nat × α)) (k : Nat) (v : α) : List (Nat × α) :=
  if (clookup l k).isSome then cupdate l k v else l ++ [(k, v)]

/-- Channel-keyed remove. -/
def cremove {α : Type} : List (Nat × α) → Nat → List (Nat × α)
  | [], _ => []
  | (a, b) :: r, k => if a = k then cremove r k else (a, b) :: cremove r k

theorem alookup_aupdate_self {α : Type} (l : List (String × α)) (k : String) (v : α) :
    alookup (aupdate l k v) k = if (alookup l k).isSome then some v else none := by
  induction l with
  | nil => simp [alookup, aupdate]
  | cons p r ih =>
    obtain ⟨a, b⟩ := p
    by_cases h : a = k <;> simp [alookup, aupdate, h, ih]

theorem alookup_aupdate_ne {α : Type} (l : List (String × α)) (k q : String) (v : α)
    (h : k ≠ q) : alookup (aupdate l k v) q = alookup l q := by
  induction l with
  | nil => simp [alookup, aupdate]
  | cons p r ih =>
    obtain ⟨a, b⟩ := p
    by_cases ha : a = k
    · subst ha; simp [alookup, aupdate, h, Ne.symm h, ih]
    · by_cases hq : a = q <;> simp [alookup, aupdate, ha, hq, Ne.symm h, ih]

theorem alookup_append_single_ne {α : Type} (l : List (String × α)) (k q : String) (v : α)
    (h : k ≠ q) : alookup (l ++ [(k, v)]) q = alookup l q := by
  induction l with
  | nil => simp [alookup, h]
  | cons p r ih =>
    obtain ⟨a, b⟩ := p
    by_cases hq : a = q <;> simp [alookup, hq, ih]

theorem alookup_ainsert_self {α : Type} (l : List (String × α)) (k : String) (v : α) :
    alookup (ainsert l k v) k = some v := by
  unfold ainsert
  by_cases h : (alookup l k).isSome
  · simp [h, alookup_aupdate_self]
  · simp only [h, if_false, Bool.false_eq_true]
    induction l with
    | nil => simp [alookup]
    | cons p r ih =>
      obtain ⟨a, b⟩ := p
      by_cases ha : a = k
      · subst ha; simp [alookup] at h
      · rw [List.cons_append]
        simp only [alookup, ha, if_false] at h ⊢
        exact ih h

theorem alookup_ainsert_ne {α : Type} (l : List (String × α)) (k q : String) (v : α)
    (h : k ≠ q) : alookup (ainsert l k v) q = alookup l q := by
  unfold ainsert
  by_cases hs : (alookup l k).isSome
  · simp [hs, alookup_aupdate_ne _ _ _ _ h]
  · simp [hs, alookup_append_single_ne _ _ _ _ h]

theorem alookup_aremove_ne {α : Type} (l : List (String × α)) (k q : String)
    (h : k ≠ q) : alookup (aremove l k) q = alookup l q := by
  induction l with
  | nil => simp [alookup, aremove]
  | cons p r ih =>
    obtain ⟨a, b⟩ := p
    by_cases ha : a = k
    · subst ha; simp [alookup, aremove, h, Ne.symm h, ih]
    · by_cases hq : a = q <;> simp [alookup, aremove, ha, hq, Ne.symm h, ih]

theorem alookup_aremove_self {α : Type} (l : List (String × α)) (k : String) :
    alookup (aremove l k) k = none := by
  induction l with
  | nil => simp [alookup, aremove]
  | cons p r ih =>
    obtain ⟨a, b⟩ := p
    by_cases ha : a = k <;> simp [alookup, aremove, ha, ih]

/-! ## Numeric helpers -/

/-- Embeds `FRAME_SIZE`: 20 ms at 48 kHz (`audio.rs`). -/
def FRAME_SIZE : Nat := 960

/-- Truncation toward zero, the semantics of Rust's `as i16` cast after clamping. -/
def ratTrunc (q : ℚ) : Int := if 0 ≤ q then q.floor else -((-q).floor)

/-- Embeds `sample.max(-1.0).min(1.0)` from `create_mix_minus_outputs`. -/
def clampUnit (q : ℚ) : ℚ := min 1 (max (-1) q)

/-- Embeds `f32::signum` restricted to the nonzero inputs on which the source uses it. -/
def signumQ (x : ℚ) : ℚ := if 0 < x then 1 else if x < 0 then -1 else 0

/-- Little-endian byte encoding, `n` bytes. -/
def leBytes : Nat → Nat → List Nat
  | 0, _ => []
  | n + 1, v => (v % 256) :: leBytes n (v / 256)

/-! ## Per-sample soft-knee compression (`apply_compression_static`, audio.rs:680) -/

/-- One sample of `apply_compression_static`: threshold 0.7, 4:1 above it. -/
def compressSample (s : ℚ) : ℚ :=
  if |s| > 7 / 10 then (7 / 10 + (|s| - 7 / 10) / 4) * signumQ s else s

/-- Embeds `apply_compression_static` maps `compressSample` over the buffer. -/
def apply_compression_static (buffer : List ℚ) : List ℚ :=
  buffer.map compressSample

/-! ## Base64 (`base64` crate, `general_purpose::STANDARD`: strict, canonical padding) -/

/-- Value of one standard-alphabet base64 symbol. -/
def b64Val (c : Char) : Option Nat :=
  let n := c.toNat
  if 65 ≤ n ∧ n ≤ 90 then some (n - 65)
  else if 97 ≤ n ∧ n ≤ 122 then some (n - 97 + 26)
  else if 48 ≤ n ∧ n ≤ 57 then some (n - 48 + 52)
  else if n = 43 then some 62
  else if n = 47 then some 63
  else none

/-- Strict standard base64 decoding by 4-symbol blocks: canonical padding required,
nonzero trailing bits rejected, `none` on any malformed input. -/
def decodeB64Blocks : List Char → Option (List Nat)
  | [] => some []
  | a :: b :: c :: d :: rest =>
    match b64Val a, b64Val b with
    | some va, some vb =>
      if c = '=' then
        if d = '=' ∧ rest = [] then
          if vb % 16 = 0 then some [va * 4 + vb / 16] else none
        else none
      else
        match b64Val c with
        | some vc =>
          if d = '=' then
            if rest = [] then
              if vc % 4 = 0 then some [va * 4 + vb / 16, vb % 16 * 16 + vc / 4] else none
            else none
          else
            match b64Val d with
            | some vd =>
              (decodeB64Blocks rest).map
                (fun t => (va * 4 + vb / 16) :: (vb % 16 * 16 + vc / 4) :: (vc % 4 * 64 + vd) :: t)
            | none => none
        | none => none
    | _, _ => none
  | _ => none

/-- Embeds `decode` of the standard engine, as an `Option`. -/
def decodeBase64 (s : String) : Option (List Nat) := decodeB64Blocks s.toList

/-- Embeds `base64_to_bytes` (lib.rs:1166): `decode(..).unwrap_or_default()`. -/
def base64_to_bytes (s : String) : List Nat := (decodeBase64 s).getD []

/-- Standard base64 alphabet. -/
def b64Alphabet : List Char :=
  "ABCDEFGHIJKLMNOPQRSTUVWXYZabcdefghijklmnopqrstuvwxyz0123456789+/".toList

/-- Symbol for one sextet. -/
def b64Chr (n : Nat) : Char := b64Alphabet.getD n 'A'

/-- Standard base64 encoding by 3-byte groups with padding. -/
def encodeB64 : List Nat → List Char
  | [] => []
  | [x] => [b64Chr (x / 4 % 64), b64Chr (x % 4 * 16), '=', '=']
  | [x, y] => [b64Chr (x / 4 % 64), b64Chr (x % 4 * 16 + y / 16 % 16), b64Chr (y % 16 * 4), '=']
  | x :: y :: z :: rest =>
    b64Chr (x / 4 % 64) :: b64Chr (x % 4 * 16 + y / 16 % 16) ::
      b64Chr (y % 16 * 4 + z / 64 % 4) :: b64Chr (z % 64) :: encodeB64 rest

/-- Embeds `bytes_to_base64` (lib.rs:1170). -/
def bytes_to_base64 (bytes : List Nat) : String := String.mk (encodeB64 bytes)

/-! ## Ogg page construction (audio.rs:532-626) -/

/-- The ASCII bytes of `"OggS"`. -/
def oggMagicBytes : List Nat := [79, 103, 103, 83]

/-- The ASCII bytes of `"OpusHead"`. -/
def opusHeadMagic : List Nat := [79, 112, 117, 115, 72, 101, 97, 100]

/-- The ASCII bytes of `"OpusTags"`. -/
def opusTagsMagic : List Nat := [79, 112, 117, 115, 84, 97, 103, 115]

/-- Embeds `create_opus_head` (audio.rs:601). -/
def create_opus_head : List Nat :=
  opusHeadMagic ++ [1, 1] ++ leBytes 2 48 ++ leBytes 4 48000 ++ leBytes 2 0 ++ [0]

/-- Embeds `create_opus_tags` (audio.rs:613): vendor string `"voice-server"`, zero comments. -/
def create_opus_tags : List Nat :=
  opusTagsMagic ++ leBytes 4 12 ++ ("voice-server".toList.map Char.toNat) ++ leBytes 4 0

/-- One shift-xor round of the Ogg CRC (polynomial 0x04c11db7), on a `u32`. -/
def crcRound (c : Nat) : Nat :=
  if 2 ^ 31 ≤ c then Nat.xor (c * 2 % 2 ^ 32) 0x04c11db7 else c * 2 % 2 ^ 32

/-- Fold one byte into the CRC accumulator. -/
def crcByte (c b : Nat) : Nat := crcRound^[8] (Nat.xor c (b % 256 * 2 ^ 24))

/-- Embeds `calculate_ogg_crc` (audio.rs:582). -/
def calculate_ogg_crc (data : List Nat) : Nat := data.foldl crcByte 0

/-- The Ogg lacing-value table: `segments` values of up to 255 summing to the data length. -/
def segTable : Nat → Nat → List Nat
  | _, 0 => []
  | remaining, cnt + 1 => min remaining 255 :: segTable (remaining - min remaining 255) cnt

/-- Embeds `create_ogg_page` (audio.rs:532): header, CRC patched at offset 22, lacing table, payload. -/
def create_ogg_page (data : List Nat) (serial_number sequence granule_pos : Nat)
    (is_first is_last : Bool) : List Nat :=
  let header_type := (if is_first then 2 else 0) + (if is_last then 4 else 0)
  let segments := (data.length + 254) / 255
  let part1 := oggMagicBytes ++ [0, header_type] ++ leBytes 8 granule_pos ++
    leBytes 4 serial_number ++ leBytes 4 sequence
  let part2 := [segments % 256] ++ segTable data.length segments ++ data
  let crc := calculate_ogg_crc (part1 ++ [0, 0, 0, 0] ++ part2)
  part1 ++ leBytes 4 crc ++ part2

/-! ## The abstract codec & packet-writer interface

The `opus` crate's stateful decoder/encoder and the `ogg` crate's
`PacketWriter` are external libraries; they are parameters of the model.
`decodeFn`/`encodeFn` return the updated codec state plus the decoded
samples / written bytes, or the library's error string. -/

structure OpusModel (D E : Type) where
  decodeFn : D → List Nat → Except String (D × List Int)
  encodeFn : E → List Int → Except String (E × List Nat)
  freshDecoder : Except String D
  freshEncoder : Except String E
  pwFirstPages : Nat → List Nat → List Nat → List Nat → List Nat

/-- Embeds `OggStreamState` (audio.rs:13). -/
structure OggStreamState where
  buffer : List Nat
  page_sequence : Nat
  granule_position : Nat
  headers_sent : Bool
  serial_number : Nat
deriving DecidableEq

/-- Embeds `AudioProcessor` (audio.rs:34), restricted to the fields the mixer reads or writes.
The unused jitter ring buffers, VAD slots and loss/jitter statistics are omitted. -/
structure AudioProcessor (D E : Type) where
  decoders : List (String × D)
  encoders : List (String × E)
  participant_audio_raw : List (String × List Nat)
  participant_audio : List (String × List ℚ)
  participant_has_sent_audio : List (String × Bool)
  participant_last_audio_time : List (String × Nat)
  master_mix : List ℚ
  ogg_streams : List (String × OggStreamState)

/-- Embeds `AudioProcessor::new` (audio.rs:64). -/
def AudioProcessor.new {D E : Type} : AudioProcessor D E :=
  ⟨[], [], [], [], [], [], List.replicate FRAME_SIZE 0, []⟩

/-- Embeds `has_participant` (audio.rs:82). -/
def AudioProcessor.has_participant {D E : Type} (p : AudioProcessor D E) (pid : String) : Bool :=
  (alookup p.participant_audio_raw pid).isSome

/-- Embeds `add_participant` (audio.rs:86).  On encoder-creation failure the decoder stays
inserted, as in the source; the second component is the returned error, if any. -/
def add_participant {D E : Type} (om : OpusModel D E) (p : AudioProcessor D E)
    (pid : String) (now : Nat) : AudioProcessor D E × Option String :=
  match om.freshDecoder with
  | .error e => (p, some ("Failed to create Opus decoder: " ++ e))
  | .ok d =>
    let p := { p with decoders := ainsert p.decoders pid d }
    match om.freshEncoder with
    | .error e => (p, some ("Failed to create Opus encoder: " ++ e))
    | .ok enc =>
      ({ p with
          encoders := ainsert p.encoders pid enc,
          participant_audio_raw := ainsert p.participant_audio_raw pid [],
          participant_audio := ainsert p.participant_audio pid (List.replicate FRAME_SIZE 0),
          participant_has_sent_audio := ainsert p.participant_has_sent_audio pid false,
          participant_last_audio_time := ainsert p.participant_last_audio_time pid now },
       none)

/-- Embeds `remove_participant` (audio.rs:126). -/
def remove_participant {D E : Type} (p : AudioProcessor D E) (pid : String) :
    AudioProcessor D E :=
  { decoders := aremove p.decoders pid,
    encoders := aremove p.encoders pid,
    participant_audio_raw := aremove p.participant_audio_raw pid,
    participant_audio := aremove p.participant_audio pid,
    participant_has_sent_audio := aremove p.participant_has_sent_audio pid,
    participant_last_audio_time := aremove p.participant_last_audio_time pid,
    master_mix := p.master_mix,
    ogg_streams := aremove p.ogg_streams pid }

/-- Embeds `update_participant_audio` (audio.rs:339): copy into the existing buffer without
changing its length. -/
def update_participant_audio {D E : Type} (p : AudioProcessor D E) (pid : String)
    (audio : List ℚ) : AudioProcessor D E :=
  match alookup p.participant_audio pid with
  | none => p
  | some buf =>
    let copy_len := min audio.length buf.length
    { p with participant_audio :=
        aupdate p.participant_audio pid (audio.take copy_len ++ buf.drop copy_len) }

/-! ## Decoding (`decode_audio` / `decode_ogg_opus`, audio.rs:141-337) -/

/-- The common tail of `decode_audio`: look up the participant's decoder, decode,
convert `i16 → f32` by dividing by 32768, right-pad with zeros to 960 samples. -/
def decodeCore {D E : Type} (om : OpusModel D E) (p : AudioProcessor D E) (pid : String)
    (bytes : List Nat) : AudioProcessor D E × Except String (List ℚ) :=
  match alookup p.decoders pid with
  | none => (p, .error ("No decoder found for participant " ++ pid))
  | some d =>
    match om.decodeFn d bytes with
    | .error e => (p, .error ("Opus decode failed: " ++ e))
    | .ok (d', samples) =>
      let fl := (samples.take FRAME_SIZE).map (fun x => (x : ℚ) / 32768)
      ({ p with decoders := aupdate p.decoders pid d' },
       .ok (fl ++ List.replicate (FRAME_SIZE - fl.length) 0))

/-- The page-scanning loop of `decode_ogg_opus` (audio.rs:239-301), restated on the
remaining byte list: check the `OggS` magic, read the lacing table, skip
`OpusHead`/`OpusTags` pages, decode every other non-empty payload, appending the
converted samples; malformed structure breaks out of the loop.  The loop advances by
at least 27 bytes per page, so with `fuel = rest.length + 1` (as supplied by
`decode_ogg_opus`) the fuel never runs out before the loop's own exit conditions;
the fuel only makes the recursion structural. -/
def oggPageLoop {D E : Type} (om : OpusModel D E) (pid : String) :
    Nat → List (String × D) → List Nat → List ℚ → List (String × D) × List ℚ
  | 0, decoders, _, acc => (decoders, acc)
  | fuel + 1, decoders, rest, acc =>
    if 27 < rest.length then
      if rest.take 4 = oggMagicBytes then
        let num_segments := rest.getD 26 0
        if 27 + num_segments ≤ rest.length then
          let payload_size := ((rest.drop 27).take num_segments).sum
          if 27 + num_segments + payload_size ≤ rest.length then
            let payload := (rest.drop (27 + num_segments)).take payload_size
            if 8 ≤ payload.length ∧
                (payload.take 8 = opusHeadMagic ∨ payload.take 8 = opusTagsMagic)
            then oggPageLoop om pid fuel decoders
              (rest.drop (27 + num_segments + payload_size)) acc
            else if payload ≠ [] then
              match alookup decoders pid with
              | some d =>
                match om.decodeFn d payload with
                | .ok (d', samples) =>
                  oggPageLoop om pid fuel (aupdate decoders pid d')
                    (rest.drop (27 + num_segments + payload_size))
                    (acc ++ (samples.take (FRAME_SIZE * 2)).map (fun x => (x : ℚ) / 32768))
                | .error _ =>
                  oggPageLoop om pid fuel decoders
                    (rest.drop (27 + num_segments + payload_size)) acc
              | none => oggPageLoop om pid fuel decoders
                  (rest.drop (27 + num_segments + payload_size)) acc
            else oggPageLoop om pid fuel decoders
              (rest.drop (27 + num_segments + payload_size)) acc
          else (decoders, acc)
        else (decoders, acc)
      else (decoders, acc)
    else (decoders, acc)

/-- Embeds `decode_ogg_opus` (audio.rs:230): run the page loop; if nothing decoded, fall back
to a raw decode of the whole buffer, substituting silence on failure; otherwise return
the first 960 extracted samples (zero-padded). Every branch returns `Except.ok`. -/
def decode_ogg_opus {D E : Type} (om : OpusModel D E) (p : AudioProcessor D E) (pid : String)
    (ogg_data : List Nat) : AudioProcessor D E × Except String (List ℚ) :=
  let r := oggPageLoop om pid (ogg_data.length + 1) p.decoders ogg_data []
  let p1 := { p with decoders := r.1 }
  let all_audio := r.2
  if all_audio = [] then
    match alookup p1.decoders pid with
    | some d =>
      match om.decodeFn d ogg_data with
      | .ok (d', samples) =>
        let fl := (samples.take FRAME_SIZE).map (fun x => (x : ℚ) / 32768)
        ({ p1 with decoders := aupdate p1.decoders pid d' },
         .ok (fl ++ List.replicate (FRAME_SIZE - fl.length) 0))
      | .error _ => (p1, .ok (List.replicate FRAME_SIZE 0))
    | none => (p1, .ok (List.replicate FRAME_SIZE 0))
  else
    (p1, .ok (all_audio.take FRAME_SIZE ++ List.replicate (FRAME_SIZE - all_audio.length) 0))

/-- Embeds `decode_audio` (audio.rs:141): first mark the sender and store the raw payload,
then dispatch on the payload's leading bytes. -/
def decode_audio {D E : Type} (om : OpusModel D E) (p : AudioProcessor D E) (pid : String)
    (opus_data : List Nat) (now : Nat) : AudioProcessor D E × Except String (List ℚ) :=
  let p1 := { p with
    participant_has_sent_audio := aupdate p.participant_has_sent_audio pid true,
    participant_last_audio_time := aupdate p.participant_last_audio_time pid now,
    participant_audio_raw := aupdate p.participant_audio_raw pid opus_data }
  if 4 ≤ opus_data.length ∧ opus_data.take 4 = oggMagicBytes then
    decode_ogg_opus om p1 pid opus_data
  else if 4 ≤ opus_data.length ∧ opus_data.getD 0 0 = 79 then
    if opus_data.getD 1 0 = 80 then
      (p1, .error "Simple PCM format not supported - use real Opus encoding")
    else if opus_data.getD 1 0 = 82 then
      let data_length := opus_data.getD 2 0 * 256 + opus_data.getD 3 0
      if 4 + data_length ≤ opus_data.length then
        decodeCore om p1 pid ((opus_data.drop 4).take data_length)
      else decodeCore om p1 pid opus_data
    else decodeCore om p1 pid opus_data
  else decodeCore om p1 pid opus_data

/-! ## Ogg output streams (`get_or_create_stream` / `write_to_ogg_stream`, audio.rs:450-530) -/

/-- The `fold`-based serial-number hash over the stream id's bytes (`u32` wrapping). -/
def oggSerialHash (sid : String) : Nat :=
  sid.toList.foldl (fun acc c => (acc + c.toNat) % 2 ^ 32 * 31 % 2 ^ 32) 0

/-- Embeds `get_or_create_stream` (audio.rs:450). -/
def get_or_create_stream (oggs : List (String × OggStreamState)) (sid : String) :
    List (String × OggStreamState) × OggStreamState :=
  match alookup oggs sid with
  | some st => (oggs, st)
  | none =>
    let stream_count := oggs.length % 2 ^ 32
    let st : OggStreamState :=
      ⟨[], 0, 0, false, Nat.xor (oggSerialHash sid) (stream_count * 2 ^ 16 % 2 ^ 32)⟩
    (oggs ++ [(sid, st)], st)

/-- Embeds `write_to_ogg_stream` (audio.rs:468): first call emits the header pages plus the
first audio page via the external `PacketWriter`; later calls emit one manually
constructed continuation page. -/
def write_to_ogg_stream {D E : Type} (om : OpusModel D E)
    (oggs : List (String × OggStreamState)) (sid : String) (opus_frame : List Nat) :
    List (String × OggStreamState) × List Nat :=
  let r := get_or_create_stream oggs sid
  let st := r.2
  if st.headers_sent = false then
    let buf := om.pwFirstPages st.serial_number create_opus_head create_opus_tags opus_frame
    let st' := { st with
      headers_sent := true
      buffer := buf
      granule_position := FRAME_SIZE % 2 ^ 64
      page_sequence := 3 }
    (ainsert r.1 sid st', buf)
  else
    let g := (st.granule_position + FRAME_SIZE) % 2 ^ 64
    let page := create_ogg_page opus_frame st.serial_number st.page_sequence g false false
    let st' := { st with granule_position := g, page_sequence := (st.page_sequence + 1) % 2 ^ 32 }
    (ainsert r.1 sid st', page)

/-! ## The mix step (`create_mix_minus_outputs`, audio.rs:348-448) -/

/-- Pointwise `mix[i] += dec[i]` for `i < min (mix.length) (dec.length)`;
the mix keeps its length. -/
def addFrame : List ℚ → List ℚ → List ℚ
  | [], _ => []
  | m :: ms, d => (m + d.headD 0) :: addFrame ms d.tail

/-- The contributors to target `T`'s personalized mix: every active participant other
than `T` when `T` is itself active, every active participant otherwise. -/
def contributorsFor (active : List (String × List Nat × List ℚ)) (target : String) :
    List (String × List Nat × List ℚ) :=
  if active.any (fun q => q.1 = target) then active.filter (fun q => q.1 ≠ target) else active

/-- The personalized pre-compression mix for `target`: the samplewise sum of the
contributors' decoded PCM over a zeroed 960-sample frame. -/
def personalMix (active : List (String × List Nat × List ℚ)) (target : String) : List ℚ :=
  (contributorsFor active target).foldl (fun m q => addFrame m q.2.2)
    (List.replicate FRAME_SIZE 0)

/-- The body of the per-target loop of `create_mix_minus_outputs`: skip the target
when it has no contributors, otherwise compress, clamp-convert to `i16`, encode with
the target's encoder and append the Ogg-streamed bytes to the output map. -/
def mixStep {D E : Type} (om : OpusModel D E) (active : List (String × List Nat × List ℚ))
    (st : List (String × E) × List (String × OggStreamState) × List (String × List Nat))
    (target : String) :
    List (String × E) × List (String × OggStreamState) × List (String × List Nat) :=
  if contributorsFor active target = [] then st
  else
    let mix := apply_compression_static (personalMix active target)
    let i16_buffer := mix.map (fun s => ratTrunc (clampUnit s * 32767))
    match alookup st.1 target with
    | none => st
    | some e =>
      match om.encodeFn e i16_buffer with
      | .error _ => st
      | .ok (e', bytes) =>
        let w := write_to_ogg_stream om st.2.1 target bytes
        (aupdate st.1 target e', w.1, st.2.2 ++ [(target, w.2)])

/-- Embeds `create_mix_minus_outputs` (audio.rs:348): compute the active set, then run the
per-target loop over every registered participant, threading encoder and Ogg-stream
state; returns the updated processor and the target → bytes output map. -/
def create_mix_minus_outputs {D E : Type} (om : OpusModel D E) (p : AudioProcessor D E) :
    AudioProcessor D E × List (String × List Nat) :=
  let all_participants := p.participant_audio.map (fun q => q.1)
  let active := (p.participant_audio_raw.filter (fun q => q.2 ≠ [])).filterMap
    (fun q => (alookup p.participant_audio q.1).map (fun dec => (q.1, q.2, dec)))
  if active = [] then (p, [])
  else
    let r := all_participants.foldl (mixStep om active) (p.encoders, p.ogg_streams, [])
    ({ p with encoders := r.1, ogg_streams := r.2.1 }, r.2.2)

/-! ## Room / connection layer (`lib.rs`) -/

/-- Embeds `Role` (lib.rs:17). -/
inductive Role where
  | Listener
  | Chatter
  | Speaker
  | Admin
deriving DecidableEq, Repr

/-- Embeds `ConnectionType` (lib.rs:25). -/
inductive ConnectionType where
  | Node (node_id : String)
  | Browser
deriving DecidableEq, Repr

/-- Embeds `UserSettings` (lib.rs:226); `Default` derives to all-false. -/
structure UserSettings where
  sound_on_user_join : Bool := false
  sound_on_user_leave : Bool := false
  sound_on_chat_message : Bool := false
  show_images_in_chat : Bool := false
  show_avatars : Bool := false
deriving DecidableEq, Repr

/-- Embeds `Participant` (lib.rs:235). -/
structure Participant where
  id : String
  display_name : String
  role : Role
  connection_type : ConnectionType
  is_muted : Bool
  settings : UserSettings
  avatar_url : Option String
deriving DecidableEq, Repr

/-- Embeds `ParticipantInfo` (lib.rs:71). -/
structure ParticipantInfo where
  id : String
  display_name : String
  role : Role
  is_muted : Bool
  settings : UserSettings
  avatar_url : Option String
deriving DecidableEq, Repr

/-- The `ParticipantInfo` view of a `Participant`, as built in the join handler. -/
def toInfo (p : Participant) : ParticipantInfo :=
  ⟨p.id, p.display_name, p.role, p.is_muted, p.settings, p.avatar_url⟩

/-- Embeds `ChatMessage` (lib.rs:82). -/
structure ChatMessage where
  id : String
  sender_id : String
  sender_name : String
  content : String
  timestamp : Nat
deriving DecidableEq, Repr

/-- Embeds `Call` (lib.rs:214). -/
structure Call where
  id : String
  participants : List (String × Participant)
  chat_history : List ChatMessage
  created_at : Nat
  default_role : Role
  creator_id : Option String
  host_id : Option String
deriving DecidableEq, Repr

/-- The outbound `WsServerMessage` constructors the embedded handlers emit. -/
inductive WsServerMessage where
  | JoinSuccess (participant_id : String) (role : Role) (participants : List ParticipantInfo)
      (chat_history : List ChatMessage) (auth_token : String) (host_id : Option String)
  | ParticipantJoined (participant : ParticipantInfo)
  | ParticipantLeft (participant_id : String)
  | AudioData (participant_id : String) (data : String) (sequence : Option Nat)
      (timestamp : Option Nat) (sample_rate : Option Nat) (channels : Option Nat)
  | Error (msg : String)
  | CallEnded
  | CloseConnection
deriving DecidableEq, Repr

/-- Embeds `VoiceState` (lib.rs:197), restricted to the fields the embedded handlers touch
(the word dictionary and host settings feed only the random generators, which are
parameters here). -/
structure VoiceState (D E : Type) where
  calls : List (String × Call)
  connections : List (Nat × String)
  participant_channels : List (String × Nat)
  call_channels : List (String × List Nat)
  used_pleb_names : List (String × List String)
  node_auth_tokens : List (String × String)
  audio_processors : List (String × AudioProcessor D E)
  participant_output_sequences : List (String × Nat)

/-- The ambient inputs of a handler invocation that the source draws from the
runtime or the RNG: `our().node`, and the fresh random values produced by
`generate_id` / pleb-name generation. -/
structure HandlerEnv where
  our_node : String
  fresh_id : String
  fresh_token : String
  fresh_pleb : String

/-- Embeds `find_participant_call` (lib.rs:1087). -/
def find_participant_call {D E : Type} (state : VoiceState D E) (pid : String) :
    Option (String × Role) :=
  state.calls.findSome? (fun q =>
    (alookup q.2.participants pid).map (fun part => (q.1, part.role)))

/-- The call lookup of `handle_disconnect` (lib.rs:1021): the id and host of the call
containing the participant. -/
def findCallOf (calls : List (String × Call)) (pid : String) : Option (String × Option String) :=
  calls.findSome? (fun q =>
    if (alookup q.2.participants pid).isSome then some (q.1, q.2.host_id) else none)

/-- Embeds `matches!(role, Role::Speaker | Role::Admin)` (lib.rs:774). -/
def canSpeak (role : Role) : Bool :=
  match role with
  | .Speaker => true
  | .Admin => true
  | _ => false

/-- Embeds `broadcast_to_call` (lib.rs:1096): one message per room participant that has a
live channel. -/
def broadcast_to_call {D E : Type} (state : VoiceState D E) (call_id : String)
    (message : WsServerMessage) : List (Nat × WsServerMessage) :=
  match alookup state.calls call_id with
  | none => []
  | some call =>
    call.participants.filterMap (fun q =>
      (alookup state.participant_channels q.1).map (fun ch => (ch, message)))

/-- Embeds `broadcast_to_call_except` (lib.rs:1113). -/
def broadcast_to_call_except {D E : Type} (state : VoiceState D E) (call_id : String)
    (except_channel : Nat) (message : WsServerMessage) : List (Nat × WsServerMessage) :=
  match alookup state.calls call_id with
  | none => []
  | some call =>
    call.participants.filterMap (fun q =>
      match alookup state.participant_channels q.1 with
      | some ch => if ch ≠ except_channel then some (ch, message) else none
      | none => none)

/-- Embeds `disconnect_all_call_channels` (lib.rs:1146): `CallEnded` to every channel of the
room in a first pass, `CloseConnection` to the same channels in a second pass. -/
def disconnect_all_call_channels {D E : Type} (state : VoiceState D E) (call_id : String) :
    List (Nat × WsServerMessage) :=
  match alookup state.call_channels call_id with
  | none => []
  | some channels =>
    channels.map (fun ch => (ch, WsServerMessage.CallEnded)) ++
      channels.map (fun ch => (ch, WsServerMessage.CloseConnection))

/-! ## Handlers (`handle_client_message` / `handle_disconnect`, lib.rs:555-1085) -/

/-- Embeds `call_id.split('-').next().unwrap_or("")`: the characters before the first dash
(the whole string when there is none). -/
def takeUntilDash : List Char → List Char
  | [] => []
  | c :: r => if c = '-' then [] else c :: takeUntilDash r

/-- The host-node name parsed off the front of a call id. -/
def hostNodeOf (s : String) : String := String.mk (takeUntilDash s.toList)

/-- The `JoinCall` identity resolution (lib.rs:565-595).  Returns the participant id,
display name and connection type, together with the possibly-updated pleb-name
reservations (the anonymous branch may record a freshly drawn pleb name). -/
def resolveJoinIdentity {D E : Type} (env : HandlerEnv) (state : VoiceState D E)
    (call_id : String) (auth_token : Option String) (display_name : Option String) :
    Except String (String × String × ConnectionType × List (String × List String)) :=
  match auth_token with
  | some token =>
    match alookup state.node_auth_tokens token with
    | some node_id =>
      .ok (node_id, display_name.getD node_id, .Node node_id, state.used_pleb_names)
    | none =>
      let host_node := hostNodeOf call_id
      if host_node = env.our_node ∧
          ((alookup state.calls call_id).map (fun c => c.creator_id.isNone)).getD false then
        .ok (env.our_node, display_name.getD env.our_node, .Node env.our_node,
          state.used_pleb_names)
      else .error "Invalid authentication token"
  | none =>
    match display_name with
    | some dn => .ok (env.fresh_id, dn, .Browser, state.used_pleb_names)
    | none =>
      if ((alookup state.calls call_id).map (fun c => c.creator_id.isNone)).getD false then
        .ok (env.fresh_id, "Host", .Browser, state.used_pleb_names)
      else
        let used := (alookup state.used_pleb_names call_id).getD []
        .ok (env.fresh_id, env.fresh_pleb, .Browser,
          ainsert state.used_pleb_names call_id (used ++ [env.fresh_pleb]))

/-- The `JoinCall` arm of `handle_client_message` (lib.rs:557-700). -/
def handleJoinCall {D E : Type} (om : OpusModel D E) (env : HandlerEnv)
    (state : VoiceState D E) (channel_id : Nat) (call_id : String)
    (auth_token display_name : Option String) (settings : Option UserSettings)
    (avatar_url : Option String) (now : Nat) :
    VoiceState D E × List (Nat × WsServerMessage) :=
  if (alookup state.calls call_id).isNone then
    (state, [(channel_id, .Error "Call not found")])
  else
    match resolveJoinIdentity env state call_id auth_token display_name with
    | .error e => (state, [(channel_id, .Error e)])
    | .ok (pid, name, conn, upd_names) =>
      let state := { state with used_pleb_names := upd_names }
      match alookup state.calls call_id with
      | none => (state, [(channel_id, .Error "Call not found")])
      | some call =>
        let role := if call.creator_id = none then Role.Admin else call.default_role
        let call := if call.creator_id = none then
            { call with creator_id := some pid, host_id := some pid } else call
        let part : Participant :=
          ⟨pid, name, role, conn, true, settings.getD {}, avatar_url⟩
        let call := { call with participants := ainsert call.participants pid part }
        let cur := (alookup state.call_channels call_id).getD []
        let state := { state with
          calls := aupdate state.calls call_id call
          connections := cinsert state.connections channel_id pid
          participant_channels := ainsert state.participant_channels pid channel_id
          call_channels := ainsert state.call_channels call_id
            (if channel_id ∈ cur then cur else cur ++ [channel_id]) }
        let proc := (alookup state.audio_processors call_id).getD AudioProcessor.new
        let proc := (add_participant om proc pid now).1
        let state := { state with
          audio_processors := ainsert state.audio_processors call_id proc
          participant_output_sequences := ainsert state.participant_output_sequences pid 0 }
        let infos := call.participants.map (fun q => toInfo q.2)
        let joined := broadcast_to_call_except state call_id channel_id
          (.ParticipantJoined (toInfo part))
        (state,
          (channel_id,
            WsServerMessage.JoinSuccess pid role infos call.chat_history env.fresh_token
              call.host_id) :: joined)

/-- The fan-out loop of the `AudioData` arm (lib.rs:828-878): for every produced mix
whose target has a live channel, read the target's output sequence (defaulting to 0),
advance it with wraparound at `u32::MAX`, and emit an `AudioData` message carrying the
constant stream label, the base64 payload, the sequence and `seq × 20` ms. -/
def fanOutMixes (pch : List (String × Nat)) (seqs : List (String × Nat))
    (mixes : List (String × List Nat)) : List (String × Nat) × List (Nat × WsServerMessage) :=
  match mixes with
  | [] => (seqs, [])
  | (target, mix) :: rest =>
    match alookup pch target with
    | none => fanOutMixes pch seqs rest
    | some tch =>
      let cur := (alookup seqs target).getD 0
      let seqs := ainsert seqs target (if cur = 4294967295 then 0 else cur + 1)
      let msg := WsServerMessage.AudioData "audio-stream" (bytes_to_base64 mix)
        (some cur) (some (cur * 20)) (some 48000) (some 1)
      let r := fanOutMixes pch seqs rest
      (r.1, (tch, msg) :: r.2)

/-- The `AudioData` arm after the payload has been decoded from base64
(lib.rs:784-879): register the sender with the call's processor if needed (bailing
out silently if codec creation fails), decode, update the PCM slot, run the mix step
and fan the personalized mixes out. -/
def handleAudioCore {D E : Type} (om : OpusModel D E) (state : VoiceState D E)
    (channel_id : Nat) (pid call_id : String) (proc : AudioProcessor D E)
    (audio_bytes : List Nat) (now : Nat) : VoiceState D E × List (Nat × WsServerMessage) :=
  match decode_audio om proc pid audio_bytes now with
  | (proc', .error e) =>
    ({ state with audio_processors := ainsert state.audio_processors call_id proc' },
     [(channel_id, .Error ("Audio decode error: " ++ e))])
  | (proc', .ok decoded) =>
    let proc'' := update_participant_audio proc' pid decoded
    let r := create_mix_minus_outputs om proc''
    let f := fanOutMixes state.participant_channels state.participant_output_sequences r.2
    ({ state with
        audio_processors := ainsert state.audio_processors call_id r.1
        participant_output_sequences := f.1 },
     f.2)

/-- The `AudioData` arm after base64 decoding (continued): participant registration
followed by `handleAudioCore`. -/
def handleAudioBytes {D E : Type} (om : OpusModel D E) (state : VoiceState D E)
    (channel_id : Nat) (pid call_id : String) (audio_bytes : List Nat) (now : Nat) :
    VoiceState D E × List (Nat × WsServerMessage) :=
  let proc := (alookup state.audio_processors call_id).getD AudioProcessor.new
  if proc.has_participant pid = false ∧ (add_participant om proc pid now).2.isSome then
    let aps := ainsert state.audio_processors call_id (add_participant om proc pid now).1
    ({ state with audio_processors := aps }, [])
  else
    handleAudioCore om state channel_id pid call_id
      (if proc.has_participant pid then proc else (add_participant om proc pid now).1)
      audio_bytes now

/-- The `AudioData` arm of `handle_client_message` (lib.rs:704-880), including the
authentication gate and the Speaker/Admin permission check. -/
def handleAudioData {D E : Type} (om : OpusModel D E) (state : VoiceState D E)
    (channel_id : Nat) (data : String) (now : Nat) :
    VoiceState D E × List (Nat × WsServerMessage) :=
  match clookup state.connections channel_id with
  | none => (state, [(channel_id, .Error "Not authenticated")])
  | some pid =>
    match find_participant_call state pid with
    | none => (state, [(channel_id, .Error "Not in a call")])
    | some (call_id, role) =>
      if canSpeak role = false then
        (state, [(channel_id, .Error "No audio permission")])
      else
        handleAudioBytes om state channel_id pid call_id (base64_to_bytes data) now

/-- Embeds `handle_disconnect` (lib.rs:1014-1085). -/
def handle_disconnect {D E : Type} (state : VoiceState D E) (channel_id : Nat) :
    VoiceState D E × List (Nat × WsServerMessage) :=
  match clookup state.connections channel_id with
  | none => (state, [])
  | some pid =>
    let state := { state with
      connections := cremove state.connections channel_id
      participant_channels := aremove state.participant_channels pid }
    match findCallOf state.calls pid with
    | none => (state, [])
    | some (call_id, host_id) =>
      let state := match alookup state.audio_processors call_id with
        | some proc =>
          let aps := ainsert state.audio_processors call_id (remove_participant proc pid)
          { state with audio_processors := aps }
        | none => state
      let state := { state with
        participant_output_sequences := aremove state.participant_output_sequences pid
        call_channels := match alookup state.call_channels call_id with
          | some chans => aupdate state.call_channels call_id (chans.filter (· ≠ channel_id))
          | none => state.call_channels }
      let is_host_leaving := host_id = some pid
      match alookup state.calls call_id with
      | none => (state, [])
      | some call =>
        let call := { call with participants := aremove call.participants pid }
        let state := { state with calls := aupdate state.calls call_id call }
        let should_end_call := call.participants.isEmpty || is_host_leaving
        if should_end_call then
          let sends := disconnect_all_call_channels state call_id
          ({ state with
              calls := aremove state.calls call_id
              used_pleb_names := aremove state.used_pleb_names call_id
              call_channels := aremove state.call_channels call_id
              audio_processors := aremove state.audio_processors call_id },
           sends)
        else
          (state, broadcast_to_call state call_id (.ParticipantLeft pid))

/-! ## Concrete fixtures used by witnesses and counterexamples -/

/-- A concrete codec instantiation: the decoder always fails, the encoder always
writes the three bytes `[9, 9, 9]`, the external packet writer emits nothing. -/
def trivOm : OpusModel Unit Unit :=
  ⟨fun _ _ => .error "err", fun _ _ => .ok ((), [9, 9, 9]), .ok (), .ok (), fun _ _ _ _ => []⟩

/-- A Listener participant fixture. -/
def aliceP : Participant := ⟨"alice", "alice", .Listener, .Browser, true, {}, none⟩

/-- A Speaker participant fixture. -/
def bobP : Participant := ⟨"bob", "bob", .Speaker, .Browser, true, {}, none⟩

/-- A two-participant call fixture. -/
def sampleCall : Call :=
  ⟨"c", [("alice", aliceP), ("bob", bobP)], [], 0, .Listener, some "host", some "host"⟩

/-- A server state with one call, a Listener on channel 1 and a Speaker on channel 2. -/
def sampleState : VoiceState Unit Unit :=
  ⟨[("c", sampleCall)], [(1, "alice"), (2, "bob")], [("alice", 1), ("bob", 2)],
   [("c", [1, 2])], [("c", [])], [], [("c", AudioProcessor.new)], [("alice", 0), ("bob", 0)]⟩

/-- Environment fixture: this server is `node1`; fresh random values are fixed. -/
def envFix : HandlerEnv := ⟨"node1", "f00", "tok", "plebword"⟩

/-- A creatorless call whose id carries this server's own node prefix. -/
def hostCall : Call := ⟨"node1-a-b-c", [], [], 0, .Listener, none, none⟩

/-- State owning `hostCall`, with no issued node-auth tokens. -/
def hostState : VoiceState Unit Unit :=
  ⟨[("node1-a-b-c", hostCall)], [], [], [], [], [], [], []⟩

/-! ## C9: soft-knee compression -/

/-- Claim C9. The per-sample soft-knee compression satisfies: for `|x| ≤ 0.7` the output
is `x` unchanged; for `|x| > 0.7` it is `sign x · (0.7 + (|x| − 0.7)/4)`; the sign of
every sample is preserved. -/
theorem C9_compression (x : ℚ) :
    (|x| ≤ 7 / 10 → compressSample x = x) ∧
    (7 / 10 < |x| → compressSample x = signumQ x * (7 / 10 + (|x| - 7 / 10) / 4)) ∧
    (0 < x → 0 < compressSample x) ∧
    (x < 0 → compressSample x < 0) ∧
    (x = 0 → compressSample x = 0) := by
  refine ⟨?_, ?_, ?_, ?_, ?_⟩
  · intro h
    simp [compressSample, not_lt.mpr h]
  · intro h
    simp only [compressSample, if_pos h]
    ring
  · intro hx
    by_cases h : |x| > 7 / 10
    · have hpos : (0 : ℚ) < 7 / 10 + (|x| - 7 / 10) / 4 := by
        have := abs_nonneg x
        linarith
      simp only [compressSample, if_pos h, signumQ, if_pos hx]
      linarith
    · simpa [compressSample, h] using hx
  · intro hx
    by_cases h : |x| > 7 / 10
    · have hpos : (0 : ℚ) < 7 / 10 + (|x| - 7 / 10) / 4 := by
        have := abs_nonneg x
        linarith
      have hnx : ¬ 0 < x := by linarith
      simp only [compressSample, if_pos h, signumQ, if_neg hnx, if_pos hx]
      nlinarith
    · simpa [compressSample, h] using hx
  · intro hx
    subst hx
    norm_num [compressSample]

theorem C9_compression_witness :
    compressSample (1 / 2) = 1 / 2 ∧
    compressSample (9 / 10) = signumQ (9 / 10) * (7 / 10 + (|(9 / 10 : ℚ)| - 7 / 10) / 4) :=
  ⟨(C9_compression (1 / 2)).1 (by rw [abs_of_nonneg] <;> norm_num),
   (C9_compression (9 / 10)).2.1 (by rw [abs_of_nonneg] <;> norm_num)⟩

/-! ## C3: the mix step does not clear raw slots -/

/-- A processor fixture with one registered participant whose raw slot is non-empty. -/
def c3Proc : AudioProcessor Unit Unit :=
  ⟨[], [], [("a", [1])], [("a", [])], [], [], List.replicate FRAME_SIZE 0, []⟩

/-- Claim C3, counterexample. `"a"` is active (raw slot `[1]` at the start of the mix
step), yet after `create_mix_minus_outputs` its raw slot is still `[1]`, not cleared
to empty as the claim states. -/
theorem C3_counterexample :
    alookup (create_mix_minus_outputs trivOm c3Proc).1.participant_audio_raw "a" = some [1] ∧
    some [(1 : Nat)] ≠ some ([] : List Nat) := by
  exact ⟨rfl, by decide⟩

/-- Claim C3, amended. The mix step leaves every raw input slot and every PCM slot
unchanged; in particular no raw slot is cleared, so a participant who sends one frame
and then stops keeps contributing to every subsequent mix step. -/
theorem C3_raw_slots_unchanged {D E : Type} (om : OpusModel D E) (p : AudioProcessor D E) :
    (create_mix_minus_outputs om p).1.participant_audio_raw = p.participant_audio_raw ∧
    (create_mix_minus_outputs om p).1.participant_audio = p.participant_audio := by
  unfold create_mix_minus_outputs
  refine ⟨?_, ?_⟩ <;> (dsimp only; split <;> rfl)

/-! ## C4: host-rejoin identity resolution -/

/-- Claim C4, counterexample. Token absent, call-id prefix `node1` equals this server's
node, call has no creator: the resolved participant id is the fresh random id
`"f00"`, not the server's node id `"node1"`. -/
theorem C4_counterexample :
    resolveJoinIdentity envFix hostState "node1-a-b-c" none none =
      .ok ("f00", "Host", .Browser, hostState.used_pleb_names) ∧
    ("f00" : String) ≠ "node1" := by
  exact ⟨rfl, by decide⟩

/-- Claim C4, amended. The host-rejoin rule fires only when an auth token is PRESENT
but unknown: then, if the call-id prefix equals this server's node id and the call
has no creator, the joiner resolves to the server's node id.  When the token is
absent the joiner always receives the freshly synthesized random id. -/
theorem C4_host_rejoin_requires_token :
    (∀ (D E : Type) (env : HandlerEnv) (state : VoiceState D E) (cid tok : String)
        (dn : Option String) (c : Call),
      alookup state.node_auth_tokens tok = none →
      hostNodeOf cid = env.our_node →
      alookup state.calls cid = some c → c.creator_id = none →
      resolveJoinIdentity env state cid (some tok) dn =
        .ok (env.our_node, dn.getD env.our_node, .Node env.our_node,
          state.used_pleb_names)) ∧
    (∀ (D E : Type) (env : HandlerEnv) (state : VoiceState D E) (cid : String)
        (dn : Option String),
      ∃ nm ct un, resolveJoinIdentity env state cid none dn = .ok (env.fresh_id, nm, ct, un)) := by
  constructor
  · intro D E env state cid tok dn c htok hpre hcall hcreator
    simp [resolveJoinIdentity, htok, hpre, hcall, hcreator]
  · intro D E env state cid dn
    cases dn with
    | some d => exact ⟨d, .Browser, state.used_pleb_names, rfl⟩
    | none =>
      by_cases h : ((alookup state.calls cid).map (fun c => c.creator_id.isNone)).getD false
      · exact ⟨"Host", .Browser, state.used_pleb_names, by simp [resolveJoinIdentity, h]⟩
      · refine ⟨env.fresh_pleb, .Browser,
          ainsert state.used_pleb_names cid
            (((alookup state.used_pleb_names cid).getD []) ++ [env.fresh_pleb]), ?_⟩
        simp [resolveJoinIdentity, h]

theorem C4_host_rejoin_requires_token_witness :
    resolveJoinIdentity envFix hostState "node1-a-b-c" (some "zz") none =
      .ok ("node1", "node1", .Node "node1", hostState.used_pleb_names) ∧
    (∃ nm ct un, resolveJoinIdentity envFix hostState "node1-a-b-c" none (some "dn") =
      .ok ("f00", nm, ct, un)) :=
  ⟨C4_host_rejoin_requires_token.1 Unit Unit envFix hostState "node1-a-b-c" "zz" none hostCall
      rfl (by decide) rfl rfl,
   C4_host_rejoin_requires_token.2 Unit Unit envFix hostState "node1-a-b-c" (some "dn")⟩

/-! ## C8: AudioData permission gate -/

/-- Claim C8. An `AudioData` message from a bound participant whose role is neither
Speaker nor Admin produces exactly one unicast `Error "No audio permission"` to the
sender, and the entire server state — mixer included — is returned unchanged, so no
participant receives any `AudioData`. -/
theorem C8_no_audio_permission {D E : Type} (om : OpusModel D E) (state : VoiceState D E)
    (channel_id : Nat) (pid call_id : String) (role : Role) (data : String) (now : Nat)
    (hc : clookup state.connections channel_id = some pid)
    (hf : find_participant_call state pid = some (call_id, role))
    (hr1 : role ≠ .Speaker) (hr2 : role ≠ .Admin) :
    handleAudioData om state channel_id data now =
      (state, [(channel_id, .Error "No audio permission")]) := by
  have hcs : canSpeak role = false := by
    cases role <;> simp_all [canSpeak]
  simp [handleAudioData, hc, hf, hcs]

theorem C8_no_audio_permission_witness :
    handleAudioData trivOm sampleState 1 "xx" 0 =
      (sampleState, [(1, .Error "No audio permission")]) :=
  C8_no_audio_permission trivOm sampleState 1 "alice" "c" .Listener "xx" 0 rfl rfl
    (by decide) (by decide)

/-! ## C1: OggS-prefixed payloads are not rejected -/

/-- Embeds `decode_ogg_opus` only ever changes the `decoders` component of the processor and
always returns `Except.ok`. -/
theorem decode_ogg_opus_shape {D E : Type} (om : OpusModel D E) (p : AudioProcessor D E)
    (pid : String) (d : List Nat) :
    ∃ decs v, decode_ogg_opus om p pid d = ({ p with decoders := decs }, Except.ok v) := by
  unfold decode_ogg_opus
  dsimp only
  repeat' split
  all_goals exact ⟨_, _, rfl⟩

/-- The processor state produced by `add_participant` on a fresh processor for
`"alice"` (the state a participant has right after joining). -/
def oggProc : AudioProcessor Unit Unit :=
  (add_participant trivOm AudioProcessor.new "alice" 0).1

/-- Claim C1, counterexample. Submitting the payload `"OggS"` (the container magic
itself): `decode_audio` returns `Ok` (a silent frame), not an error, and the
has-sent-audio flag is flipped from `false` to `true` — the mixer state is mutated. -/
theorem C1_counterexample :
    (decode_audio trivOm oggProc "alice" oggMagicBytes 5).2 =
      Except.ok (List.replicate FRAME_SIZE (0 : ℚ)) ∧
    alookup oggProc.participant_has_sent_audio "alice" = some false ∧
    alookup (decode_audio trivOm oggProc "alice" oggMagicBytes 5).1.participant_has_sent_audio
      "alice" = some true := by
  exact ⟨rfl, rfl, rfl⟩

/-- Claim C1, amended. For every payload whose first four bytes are `"OggS"`,
`decode_audio` does not reject: it marks the sender's has-sent-audio flag, stamps the
last-input time, overwrites the raw slot with the payload, and delegates to the Ogg
extraction path, which always returns `Ok` (extracted samples, or silence when
nothing decodes) — so mixing proceeds for that tick. -/
theorem C1_ogg_payload_accepted {D E : Type} (om : OpusModel D E) (p : AudioProcessor D E)
    (pid : String) (d : List Nat) (now : Nat)
    (hlen : 4 ≤ d.length) (hmagic : d.take 4 = oggMagicBytes)
    (hraw : (alookup p.participant_audio_raw pid).isSome = true)
    (hsent : (alookup p.participant_has_sent_audio pid).isSome = true)
    (htime : (alookup p.participant_last_audio_time pid).isSome = true) :
    alookup (decode_audio om p pid d now).1.participant_audio_raw pid = some d ∧
    alookup (decode_audio om p pid d now).1.participant_has_sent_audio pid = some true ∧
    alookup (decode_audio om p pid d now).1.participant_last_audio_time pid = some now ∧
    ∃ v, (decode_audio om p pid d now).2 = Except.ok v := by
  have hd : decode_audio om p pid d now = decode_ogg_opus om
      { p with
        participant_has_sent_audio := aupdate p.participant_has_sent_audio pid true
        participant_last_audio_time := aupdate p.participant_last_audio_time pid now
        participant_audio_raw := aupdate p.participant_audio_raw pid d } pid d := by
    simp [decode_audio, hlen, hmagic]
  obtain ⟨decs, v, hshape⟩ := decode_ogg_opus_shape om
    { p with
      participant_has_sent_audio := aupdate p.participant_has_sent_audio pid true
      participant_last_audio_time := aupdate p.participant_last_audio_time pid now
      participant_audio_raw := aupdate p.participant_audio_raw pid d } pid d
  rw [hd, hshape]
  refine ⟨?_, ?_, ?_, ⟨v, rfl⟩⟩
  · show alookup (aupdate p.participant_audio_raw pid d) pid = some d
    rw [alookup_aupdate_self, if_pos hraw]
  · show alookup (aupdate p.participant_has_sent_audio pid true) pid = some true
    rw [alookup_aupdate_self, if_pos hsent]
  · show alookup (aupdate p.participant_last_audio_time pid now) pid = some now
    rw [alookup_aupdate_self, if_pos htime]

theorem C1_ogg_payload_accepted_witness :
    alookup (decode_audio trivOm oggProc "alice" oggMagicBytes 5).1.participant_audio_raw
      "alice" = some oggMagicBytes ∧
    (∃ v, (decode_audio trivOm oggProc "alice" oggMagicBytes 5).2 = Except.ok v) :=
  ⟨(C1_ogg_payload_accepted trivOm oggProc "alice" oggMagicBytes 5 (by decide) rfl
      rfl rfl rfl).1,
   (C1_ogg_payload_accepted trivOm oggProc "alice" oggMagicBytes 5 (by decide) rfl
      rfl rfl rfl).2.2.2⟩

/-! ## C10: invalid base64 silently becomes an empty frame -/

/-- Every message the audio fan-out emits is an `AudioData` with the constant stream
label and a timestamp derived as `seq × 20`. -/
theorem fanOutMixes_msg_shape (mixes : List (String × List Nat)) :
    ∀ (pch seqs : List (String × Nat)) (c : Nat) (msg : WsServerMessage),
      (c, msg) ∈ (fanOutMixes pch seqs mixes).2 →
      ∃ d s, msg = WsServerMessage.AudioData "audio-stream" d (some s) (some (s * 20))
        (some 48000) (some 1) := by
  induction mixes with
  | nil => intro pch seqs c msg h; simp [fanOutMixes] at h
  | cons hd rest ih =>
    intro pch seqs c msg h
    obtain ⟨target, mix⟩ := hd
    rw [fanOutMixes] at h
    cases hl : alookup pch target with
    | none => rw [hl] at h; exact ih pch seqs c msg h
    | some tch =>
      rw [hl] at h
      simp only [List.mem_cons] at h
      rcases h with h | h
      · exact ⟨bytes_to_base64 mix, (alookup seqs target).getD 0, congrArg Prod.snd h⟩
      · exact ih pch _ c msg h

/-- In `handleAudioCore` the only `Error` ever sent is the decode error. -/
theorem handleAudioCore_error_shape {D E : Type} (om : OpusModel D E)
    (state : VoiceState D E) (ch : Nat) (pid cid : String) (proc : AudioProcessor D E)
    (bytes : List Nat) (now : Nat) (c : Nat) (m : String)
    (h : (c, WsServerMessage.Error m) ∈ (handleAudioCore om state ch pid cid proc bytes now).2) :
    ∃ e, m = "Audio decode error: " ++ e := by
  rw [handleAudioCore] at h
  rcases hdec : decode_audio om proc pid bytes now with ⟨proc2, res⟩
  rw [hdec] at h
  cases res with
  | error e =>
    simp only [List.mem_singleton, Prod.mk.injEq, WsServerMessage.Error.injEq] at h
    exact ⟨e, h.2⟩
  | ok decoded =>
    dsimp only at h
    obtain ⟨d, s, hmsg⟩ := fanOutMixes_msg_shape _ _ _ _ _ h
    exact absurd hmsg (by simp)

/-- In `handleAudioBytes` the only `Error` ever sent is the decode error. -/
theorem handleAudioBytes_error_shape {D E : Type} (om : OpusModel D E)
    (state : VoiceState D E) (ch : Nat) (pid cid : String) (bytes : List Nat) (now : Nat)
    (c : Nat) (m : String)
    (h : (c, WsServerMessage.Error m) ∈ (handleAudioBytes om state ch pid cid bytes now).2) :
    ∃ e, m = "Audio decode error: " ++ e := by
  rw [handleAudioBytes] at h
  split at h
  · simp at h
  · exact handleAudioCore_error_shape om state ch pid cid _ bytes now c m h

/-- Claim C10. An `AudioData` payload that is not valid standard base64 is not rejected
as an invalid message: it decodes to the empty byte vector, the handler proceeds into
the Opus decode path with that empty frame, and any error the handler emits is an
`"Audio decode error: …"`, never an invalid-message error. -/
theorem C10_invalid_base64 {D E : Type} (om : OpusModel D E) (state : VoiceState D E)
    (ch : Nat) (pid cid : String) (role : Role) (data : String) (now : Nat)
    (hb : decodeBase64 data = none)
    (hc : clookup state.connections ch = some pid)
    (hf : find_participant_call state pid = some (cid, role))
    (hr : canSpeak role = true) :
    base64_to_bytes data = [] ∧
    handleAudioData om state ch data now = handleAudioBytes om state ch pid cid [] now ∧
    (∀ (c : Nat) (m : String),
      (c, WsServerMessage.Error m) ∈ (handleAudioData om state ch data now).2 →
      ∃ e, m = "Audio decode error: " ++ e) := by
  have h0 : base64_to_bytes data = [] := by simp [base64_to_bytes, hb]
  have h1 : handleAudioData om state ch data now = handleAudioBytes om state ch pid cid [] now := by
    simp only [handleAudioData, hc, hf, hr, h0, Bool.true_eq_false, if_false]
  refine ⟨h0, h1, fun c m hm => ?_⟩
  rw [h1] at hm
  exact handleAudioBytes_error_shape om state ch pid cid [] now c m hm

theorem C10_invalid_base64_witness :
    base64_to_bytes "!!!" = [] ∧
    handleAudioData trivOm sampleState 2 "!!!" 0 = handleAudioBytes trivOm sampleState 2 "bob" "c" [] 0 :=
  ⟨(C10_invalid_base64 trivOm sampleState 2 "bob" "c" .Speaker "!!!" 0 rfl rfl rfl rfl).1,
   (C10_invalid_base64 trivOm sampleState 2 "bob" "c" .Speaker "!!!" 0 rfl rfl rfl rfl).2.1⟩

/-! ## C7: output sequencing -/

/-- Claim C7. (i) A successful join resets the joiner's output sequence counter to 0.
(ii) One fan-out step to a target whose counter holds `s < 2^32` emits an `AudioData`
carrying sequence `s` and timestamp `s × 20` ms and stores `(s+1) mod 2^32` — so
successive frames increase by one modulo `2^32` and the counter wraps from
`2^32 − 1` to `0` with no gap.  (iii) Every emitted frame carries a sequence and the
timestamp derived from it. -/
theorem C7_sequencer :
    (∀ (D E : Type) (om : OpusModel D E) (env : HandlerEnv) (state : VoiceState D E)
        (ch : Nat) (cid : String) (tok dn : Option String) (stg : Option UserSettings)
        (av : Option String) (now : Nat) (pid nm : String) (ct : ConnectionType)
        (un : List (String × List String)),
      (alookup state.calls cid).isSome = true →
      resolveJoinIdentity env state cid tok dn = .ok (pid, nm, ct, un) →
      alookup (handleJoinCall om env state ch cid tok dn stg av now).1.participant_output_sequences
        pid = some 0) ∧
    (∀ (pch seqs : List (String × Nat)) (target : String) (mix : List Nat)
        (rest : List (String × List Nat)) (tch s : Nat),
      alookup pch target = some tch → alookup seqs target = some s → s < 2 ^ 32 →
      fanOutMixes pch seqs ((target, mix) :: rest) =
        ((fanOutMixes pch (ainsert seqs target ((s + 1) % 2 ^ 32)) rest).1,
         (tch, WsServerMessage.AudioData "audio-stream" (bytes_to_base64 mix) (some s)
           (some (s * 20)) (some 48000) (some 1)) ::
           (fanOutMixes pch (ainsert seqs target ((s + 1) % 2 ^ 32)) rest).2)) ∧
    (∀ (pch seqs : List (String × Nat)) (mixes : List (String × List Nat)) (c : Nat)
        (msg : WsServerMessage), (c, msg) ∈ (fanOutMixes pch seqs mixes).2 →
      ∃ d s, msg = WsServerMessage.AudioData "audio-stream" d (some s) (some (s * 20))
        (some 48000) (some 1)) := by
  refine ⟨?_, ?_, ?_⟩
  · intro D E om env state ch cid tok dn stg av now pid nm ct un hsome hres
    obtain ⟨call, hcall⟩ := Option.isSome_iff_exists.mp hsome
    rw [handleJoinCall]
    simp only [hcall, hres, Option.isNone_some, Bool.false_eq_true, if_false]
    exact alookup_ainsert_self _ _ _
  · intro pch seqs target mix rest tch s hpch hseqs hlt
    have hwrap : (if s = 4294967295 then 0 else s + 1) = (s + 1) % 2 ^ 32 := by
      split <;> omega
    rw [fanOutMixes, hpch, hseqs]
    dsimp only [Option.getD_some]
    rw [hwrap]
  · intro pch seqs mixes c msg h
    exact fanOutMixes_msg_shape mixes pch seqs c msg h

theorem C7_sequencer_witness :
    alookup (handleJoinCall trivOm envFix sampleState 3 "c" none (some "guest") none none
        0).1.participant_output_sequences "f00" = some 0 ∧
    fanOutMixes [("t", 5)] [("t", 4294967295)] [("t", [1, 2, 3])] =
      ((fanOutMixes [("t", 5)] (ainsert [("t", 4294967295)] "t" ((4294967295 + 1) % 2 ^ 32))
          []).1,
       (5, WsServerMessage.AudioData "audio-stream" (bytes_to_base64 [1, 2, 3])
         (some 4294967295) (some (4294967295 * 20)) (some 48000) (some 1)) ::
         (fanOutMixes [("t", 5)] (ainsert [("t", 4294967295)] "t" ((4294967295 + 1) % 2 ^ 32))
           []).2) :=
  ⟨C7_sequencer.1 Unit Unit trivOm envFix sampleState 3 "c" none (some "guest") none none 0
      "f00" "guest" .Browser sampleState.used_pleb_names rfl rfl,
   C7_sequencer.2.1 [("t", 5)] [("t", 4294967295)] "t" [1, 2, 3] [] 5 4294967295 rfl rfl
      (by norm_num)⟩

/-! ## C6: host departure teardown -/

/-- Claim C6, amended. When the host's channel closes, the room's remaining channels
each receive `CallEnded` (first pass) before any `CloseConnection` (second pass), and
the room, its mixer, its used-name reservations and its channel set are removed — but
only the departing host's own output-sequence entry is removed: every other
participant's sequencer entry survives in the server state. -/
theorem C6_host_disconnect_teardown {D E : Type} (state : VoiceState D E) (ch : Nat)
    (pid cid : String) (c : Call)
    (hc : clookup state.connections ch = some pid)
    (hf : findCallOf state.calls pid = some (cid, some pid))
    (hcall : alookup state.calls cid = some c) :
    alookup (handle_disconnect state ch).1.calls cid = none ∧
    alookup (handle_disconnect state ch).1.used_pleb_names cid = none ∧
    alookup (handle_disconnect state ch).1.call_channels cid = none ∧
    alookup (handle_disconnect state ch).1.audio_processors cid = none ∧
    alookup (handle_disconnect state ch).1.participant_output_sequences pid = none ∧
    (∀ q, q ≠ pid →
      alookup (handle_disconnect state ch).1.participant_output_sequences q =
        alookup state.participant_output_sequences q) ∧
    (handle_disconnect state ch).2 =
      (((alookup state.call_channels cid).getD []).filter (· ≠ ch)).map
          (fun x => (x, WsServerMessage.CallEnded)) ++
        (((alookup state.call_channels cid).getD []).filter (· ≠ ch)).map
          (fun x => (x, WsServerMessage.CloseConnection)) := by
  rcases hap : alookup state.audio_processors cid with _ | proc <;>
    rcases hcc : alookup state.call_channels cid with _ | chans
  all_goals
    simp only [handle_disconnect, hc, hf, hap, hcc, hcall, decide_True, Bool.or_true,
      eq_self_iff_true, if_true, Option.isSome_some, Option.getD_some, Option.getD_none]
  all_goals
    refine ⟨alookup_aremove_self _ _, alookup_aremove_self _ _, alookup_aremove_self _ _,
      alookup_aremove_self _ _, alookup_aremove_self _ _,
      fun q hq => alookup_aremove_ne _ _ _ (fun h => hq h.symm), ?_⟩
  all_goals
    simp [disconnect_all_call_channels, alookup_aupdate_self, hcc]

/-- A two-participant room: host `"h"` on channel 1 (sequencer 5), guest `"g"` on
channel 2 (sequencer 7). -/
def hostP6 : Participant := ⟨"h", "h", .Admin, .Browser, true, {}, none⟩

/-- The guest participant of the C6 fixture. -/
def guestP6 : Participant := ⟨"g", "g", .Listener, .Browser, true, {}, none⟩

/-- The C6 fixture call. -/
def call6 : Call := ⟨"c", [("h", hostP6), ("g", guestP6)], [], 0, .Listener, some "h", some "h"⟩

/-- The C6 fixture server state. -/
def state6 : VoiceState Unit Unit :=
  ⟨[("c", call6)], [(1, "h"), (2, "g")], [("h", 1), ("g", 2)], [("c", [1, 2])],
   [("c", [])], [], [("c", AudioProcessor.new)], [("h", 5), ("g", 7)]⟩

/-- Claim C6, counterexample. After the host's disconnect tears the room down, the
guest's output-sequencer entry is still present (`some 7`), so the per-participant
output sequencers are not all removed from the server state as the claim states. -/
theorem C6_counterexample :
    alookup (handle_disconnect state6 1).1.calls "c" = none ∧
    alookup (handle_disconnect state6 1).1.participant_output_sequences "g" = some 7 := by
  exact ⟨rfl, rfl⟩

theorem C6_host_disconnect_teardown_witness :
    alookup (handle_disconnect state6 1).1.audio_processors "c" = none ∧
    (handle_disconnect state6 1).2 = [(2, .CallEnded), (2, .CloseConnection)] ∧
    alookup (handle_disconnect state6 1).1.participant_output_sequences "g" =
      alookup state6.participant_output_sequences "g" := by
  obtain h := C6_host_disconnect_teardown state6 1 "h" "c" call6 rfl rfl rfl
  exact ⟨h.2.2.2.1, by rw [h.2.2.2.2.2.2]; rfl, h.2.2.2.2.2.1 "g" (by decide)⟩

/-! ## C5: personalized mix contents -/

theorem addFrame_length (m : List ℚ) : ∀ d : List ℚ, (addFrame m d).length = m.length := by
  induction m with
  | nil => intro d; rfl
  | cons x ms ih => intro d; simp [addFrame, ih]

theorem headD_eq_getD_zero (d : List ℚ) : d.headD 0 = d.getD 0 0 := by
  cases d <;> rfl

theorem tail_getD (d : List ℚ) (i : Nat) : d.tail.getD i 0 = d.getD (i + 1) 0 := by
  cases d <;> rfl

theorem addFrame_getD (m : List ℚ) : ∀ (d : List ℚ) (i : Nat), i < m.length →
    (addFrame m d).getD i 0 = m.getD i 0 + d.getD i 0 := by
  induction m with
  | nil => intro d i h; simp at h
  | cons x ms ih =>
    intro d i h
    cases i with
    | zero => cases d <;> simp [addFrame]
    | succ i =>
      have hi : i < ms.length := by simp at h; omega
      simp only [addFrame, List.getD_cons_succ]
      rw [ih d.tail i hi, tail_getD]

theorem foldl_addFrame_getD (l : List (String × List Nat × List ℚ)) :
    ∀ (init : List ℚ) (i : Nat), i < init.length →
      (l.foldl (fun m q => addFrame m q.2.2) init).getD i 0 =
        init.getD i 0 + (l.map (fun q => q.2.2.getD i 0)).sum := by
  induction l with
  | nil => intro init i h; simp
  | cons a l ih =>
    intro init i h
    have h' : i < (addFrame init a.2.2).length := by rw [addFrame_length]; exact h
    simp only [List.foldl_cons, List.map_cons, List.sum_cons]
    rw [ih (addFrame init a.2.2) i h', addFrame_getD init a.2.2 i h]
    ring

theorem replicate_getD_zero (n i : Nat) : (List.replicate n (0 : ℚ)).getD i 0 = 0 := by
  induction n generalizing i with
  | zero => cases i <;> rfl
  | succ n ih => cases i with
    | zero => rfl
    | succ i => simp only [List.replicate, List.getD_cons_succ]; exact ih i

/-- A target with no contributors is skipped without touching any state. -/
theorem mixStep_skip {D E : Type} (om : OpusModel D E)
    (active : List (String × List Nat × List ℚ))
    (st : List (String × E) × List (String × OggStreamState) × List (String × List Nat))
    (target : String) (h : contributorsFor active target = []) :
    mixStep om active st target = st := by
  simp [mixStep, h]

/-- Any output entry the per-target step adds is keyed by the processed target. -/
theorem mixStep_snd_out {D E : Type} (om : OpusModel D E)
    (active : List (String × List Nat × List ℚ))
    (st : List (String × E) × List (String × OggStreamState) × List (String × List Nat))
    (target : String) (x : String) (f : List Nat)
    (h : (x, f) ∈ (mixStep om active st target).2.2) : (x, f) ∈ st.2.2 ∨ x = target := by
  rw [mixStep] at h
  split at h
  · exact Or.inl h
  · split at h
    · exact Or.inl h
    · dsimp only at h
      split at h
      · exact Or.inl h
      · dsimp only at h
        rw [List.mem_append] at h
        rcases h with h | h
        · exact Or.inl h
        · exact Or.inr (congrArg Prod.fst (List.mem_singleton.mp h))

/-- A target with no contributors never acquires an output over the whole loop. -/
theorem foldl_mixStep_not_mem {D E : Type} (om : OpusModel D E)
    (active : List (String × List Nat × List ℚ)) (t : String) (f : List Nat)
    (hskip : contributorsFor active t = []) (targets : List String) :
    ∀ st, (t, f) ∉ st.2.2 → (t, f) ∉ (targets.foldl (mixStep om active) st).2.2 := by
  induction targets with
  | nil => intro st h; exact h
  | cons u rest ih =>
    intro st hnot
    simp only [List.foldl_cons]
    apply ih
    intro hmem
    by_cases hu : u = t
    · subst hu
      rw [mixStep_skip om active st u hskip] at hmem
      exact hnot hmem
    · rcases mixStep_snd_out om active st u t f hmem with h | h
      · exact hnot h
      · exact hu h.symm

/-- Claim C5, amended. (i) The personalized pre-compression frame of target `T` is the
samplewise sum of the decoded PCM of `T`'s contributors: every active participant
other than `T` when `T` is active, every active participant otherwise.  (ii) A room
whose single registered participant is its only active speaker produces an empty
output map.  (iii) More generally, the sole active participant never receives a
frame.  (A `T` with contributors whose samples sum to zero is still emitted, and
inactive listeners still receive frames, so "empty output map" holds only in case
(ii).) -/
theorem C5_mix_content :
    (∀ (active : List (String × List Nat × List ℚ)) (target : String) (i : Nat),
      i < FRAME_SIZE →
      (personalMix active target).getD i 0 =
        ((contributorsFor active target).map (fun q => q.2.2.getD i 0)).sum) ∧
    (∀ (D E : Type) (om : OpusModel D E) (p : AudioProcessor D E) (t : String)
        (raw : List Nat) (pcm : List ℚ),
      p.participant_audio = [(t, pcm)] → p.participant_audio_raw = [(t, raw)] →
      raw ≠ [] → (create_mix_minus_outputs om p).2 = []) ∧
    (∀ (D E : Type) (om : OpusModel D E) (p : AudioProcessor D E) (t : String)
        (raw : List Nat) (pcm : List ℚ),
      p.participant_audio_raw.filter (fun q => q.2 ≠ []) = [(t, raw)] →
      alookup p.participant_audio t = some pcm →
      ∀ f, (t, f) ∉ (create_mix_minus_outputs om p).2) := by
  refine ⟨?_, ?_, ?_⟩
  · intro active target i hi
    rw [personalMix, foldl_addFrame_getD _ _ _ (by simpa using hi), replicate_getD_zero]
    ring
  · intro D E om p t raw pcm h1 h2 h3
    simp [create_mix_minus_outputs, h1, h2, h3, alookup, mixStep, contributorsFor]
  · intro D E om p t raw pcm h1 h2 f
    have hact : (p.participant_audio_raw.filter (fun q => q.2 ≠ [])).filterMap
        (fun q => (alookup p.participant_audio q.1).map (fun dec => (q.1, q.2, dec))) =
        [(t, raw, pcm)] := by
      rw [h1]; simp [h2]
    have hskip : contributorsFor [(t, raw, pcm)] t = [] := by
      simp [contributorsFor]
    rw [create_mix_minus_outputs]
    simp only [hact]
    intro hmem
    split at hmem
    · simp at hmem
    · exact foldl_mixStep_not_mem om [(t, raw, pcm)] t f hskip _ _ (by simp) hmem

/-- Fixture: `"a"` is the only active participant (raw `[1]`), `"b"` a registered
listener with an encoder; `"a"`'s PCM slot is empty. -/
def listenP : AudioProcessor Unit Unit :=
  ⟨[], [("a", ()), ("b", ())], [("a", [1]), ("b", [])], [("a", []), ("b", [])],
   [], [], List.replicate FRAME_SIZE 0, []⟩

/-- Claim C5, counterexample. In a room whose only active participant is `"a"` (with a
registered listener `"b"`), the mix step does **not** return an empty output map: the
listener receives a frame. -/
theorem C5_counterexample :
    (create_mix_minus_outputs trivOm listenP).2 = [("b", [])] ∧
    [("b", ([] : List Nat))] ≠ [] := by
  exact ⟨rfl, by decide⟩

theorem C5_mix_content_witness :
    (personalMix [("a", [1], [2, 3]), ("b", [2], [5, 7])] "b").getD 0 0 =
      (([("a", ([1] : List Nat), ([2, 3] : List ℚ))].map (fun q => q.2.2.getD 0 0)).sum) ∧
    (create_mix_minus_outputs trivOm
        (⟨[], [("a", ())], [("a", [1])], [("a", [2, 3])], [], [],
          List.replicate FRAME_SIZE 0, []⟩ : AudioProcessor Unit Unit)).2 = [] := by
  constructor
  · have h := C5_mix_content.1 [("a", [1], [2, 3]), ("b", [2], [5, 7])] "b" 0 (by decide)
    rw [h]
    rfl
  · exact C5_mix_content.2.1 Unit Unit trivOm _ "a" [1] [2, 3] rfl rfl (by decide)

/-! ## C2: outputs are Ogg-wrapped, not bare encoder prefixes -/

/-- Writing to one participant's Ogg stream does not disturb another's entry. -/
theorem write_ogg_lookup_ne {D E : Type} (om : OpusModel D E)
    (oggs : List (String × OggStreamState)) (u t : String) (fr : List Nat) (h : u ≠ t) :
    alookup (write_to_ogg_stream om oggs u fr).1 t = alookup oggs t := by
  rw [write_to_ogg_stream, get_or_create_stream]
  cases hl : alookup oggs u with
  | some st =>
    dsimp only
    split <;> exact alookup_ainsert_ne _ _ _ _ h
  | none =>
    dsimp only
    split <;>
      rw [alookup_ainsert_ne _ _ _ _ h, alookup_append_single_ne _ _ _ _ h]

/-- The per-target step does not disturb the Ogg stream of any other participant. -/
theorem mixStep_ogg_preserved {D E : Type} (om : OpusModel D E)
    (active : List (String × List Nat × List ℚ))
    (st : List (String × E) × List (String × OggStreamState) × List (String × List Nat))
    (u t : String) (h : u ≠ t) :
    alookup (mixStep om active st u).2.1 t = alookup st.2.1 t := by
  rw [mixStep]
  split
  · rfl
  · split
    · rfl
    · dsimp only
      split
      · rfl
      · exact write_ogg_lookup_ne om st.2.1 u t _ h

/-- A target that never appears in the loop's target list acquires no output. -/
theorem foldl_mixStep_mem_of_not_in {D E : Type} (om : OpusModel D E)
    (active : List (String × List Nat × List ℚ)) (t : String) (f : List Nat) :
    ∀ (targets : List String) st, t ∉ targets →
      (t, f) ∈ (targets.foldl (mixStep om active) st).2.2 → (t, f) ∈ st.2.2 := by
  intro targets
  induction targets with
  | nil => intro st _ h; exact h
  | cons u rest ih =>
    intro st hnot h
    have hut : u ≠ t := fun e => hnot (e ▸ List.mem_cons_self u rest)
    have hrest : t ∉ rest := fun e => hnot (List.mem_cons_of_mem u e)
    rcases mixStep_snd_out om active st u t f (ih (mixStep om active st u) hrest h) with h' | h'
    · exact h'
    · exact absurd h'.symm hut

/-- One step on target `t` itself, whose stream already has its headers out, either
leaves the outputs alone or appends the Ogg continuation page of the encoded bytes. -/
theorem mixStep_new_mem {D E : Type} (om : OpusModel D E)
    (active : List (String × List Nat × List ℚ))
    (st : List (String × E) × List (String × OggStreamState) × List (String × List Nat))
    (t : String) (f : List Nat) (stm : OggStreamState)
    (hogg : alookup st.2.1 t = some stm) (hdr : stm.headers_sent = true)
    (h : (t, f) ∈ (mixStep om active st t).2.2) :
    (t, f) ∈ st.2.2 ∨ ∃ b, f = create_ogg_page b stm.serial_number stm.page_sequence
      ((stm.granule_position + FRAME_SIZE) % 2 ^ 64) false false := by
  rw [mixStep] at h
  split at h
  · exact Or.inl h
  · split at h
    · exact Or.inl h
    · dsimp only at h
      split at h
      · exact Or.inl h
      · next e' bytes heq =>
        dsimp only at h
        rw [write_to_ogg_stream, get_or_create_stream, hogg] at h
        dsimp only at h
        rw [if_neg (by simp [hdr])] at h
        dsimp only at h
        rw [List.mem_append] at h
        rcases h with h | h
        · exact Or.inl h
        · exact Or.inr ⟨bytes, congrArg Prod.snd (List.mem_singleton.mp h)⟩

/-- Over the whole loop, a target listed at most once whose stream has its headers
out receives only the Ogg continuation page of some encoded bytes. -/
theorem foldl_mixStep_mem_shape {D E : Type} (om : OpusModel D E)
    (active : List (String × List Nat × List ℚ)) (t : String) (f : List Nat)
    (stm : OggStreamState) (hdr : stm.headers_sent = true) :
    ∀ (targets : List String) st, targets.count t ≤ 1 →
      alookup st.2.1 t = some stm →
      (t, f) ∈ (targets.foldl (mixStep om active) st).2.2 →
      (t, f) ∈ st.2.2 ∨ ∃ b, f = create_ogg_page b stm.serial_number stm.page_sequence
        ((stm.granule_position + FRAME_SIZE) % 2 ^ 64) false false := by
  intro targets
  induction targets with
  | nil => intro st _ _ h; exact Or.inl h
  | cons u rest ih =>
    intro st hcount hogg h
    by_cases hu : u = t
    · rw [hu] at h hcount
      have hnotrest : t ∉ rest := by
        rw [List.count_cons_self] at hcount
        exact List.count_eq_zero.mp (by omega)
      have hmem := foldl_mixStep_mem_of_not_in om active t f rest
        (mixStep om active st t) hnotrest h
      exact mixStep_new_mem om active st t f stm hogg hdr hmem
    · have hogg' : alookup (mixStep om active st u).2.1 t = some stm := by
        rw [mixStep_ogg_preserved om active st u t hu]; exact hogg
      have hcount' : rest.count t ≤ 1 := by
        rwa [List.count_cons_of_ne (fun e => hu e.symm)] at hcount
      rcases ih (mixStep om active st u) hcount' hogg' h with h' | h'
      · rcases mixStep_snd_out om active st u t f h' with h'' | h''
        · exact Or.inl h''
        · exact absurd h''.symm hu
      · exact Or.inr h'

/-- Every Ogg page starts with the `"OggS"` capture pattern. -/
theorem create_ogg_page_take4 (d : List Nat) (sn sq g : Nat) (b1 b2 : Bool) :
    (create_ogg_page d sn sq g b1 b2).take 4 = oggMagicBytes := by
  simp only [create_ogg_page, oggMagicBytes]
  simp [List.append_assoc, List.take]

/-- Claim C2, amended. The frame placed in the output map for `T` is not the bare
encoder prefix: it is the prefix wrapped in `T`'s per-participant Ogg output stream.
Once `T`'s stream has emitted its headers, each output frame is exactly the manually
built Ogg continuation page of the encoder-written prefix — carrying the stream's
serial number, page sequence, and the advanced granule position — and begins with
the `"OggS"` container magic. -/
theorem C2_output_is_ogg_page {D E : Type} (om : OpusModel D E) (p : AudioProcessor D E)
    (t : String) (stm : OggStreamState) (f : List Nat)
    (hogg : alookup p.ogg_streams t = some stm) (hdr : stm.headers_sent = true)
    (hcount : (p.participant_audio.map (fun q => q.1)).count t ≤ 1)
    (hmem : (t, f) ∈ (create_mix_minus_outputs om p).2) :
    (∃ b, f = create_ogg_page b stm.serial_number stm.page_sequence
      ((stm.granule_position + FRAME_SIZE) % 2 ^ 64) false false) ∧
    f.take 4 = oggMagicBytes := by
  rw [create_mix_minus_outputs] at hmem
  split at hmem
  · simp at hmem
  · dsimp only at hmem
    rcases foldl_mixStep_mem_shape om _ t f stm hdr _
        (p.encoders, p.ogg_streams, []) hcount hogg hmem with h | h
    · simp at h
    · obtain ⟨b, hb⟩ := h
      exact ⟨⟨b, hb⟩, by rw [hb]; exact create_ogg_page_take4 _ _ _ _ _ _⟩

/-- Fixture for C2: `"a"` is the only active participant; the listener `"b"` owns an
encoder and an Ogg stream that has already emitted its headers (serial 7, page
sequence 3, granule 960). -/
def c2Proc : AudioProcessor Unit Unit :=
  ⟨[], [("a", ()), ("b", ())], [("a", [1]), ("b", [])], [("a", []), ("b", [])],
   [], [], List.replicate FRAME_SIZE 0, [("b", ⟨[], 3, 960, true, 7⟩)]⟩

/-- Claim C2, counterexample. `"b"`'s encoder writes the prefix `[9, 9, 9]`, but the
frame placed in the output map for `"b"` is the Ogg continuation page wrapping that
prefix — not the bare prefix itself. -/
theorem C2_counterexample :
    (create_mix_minus_outputs trivOm c2Proc).2 =
      [("b", create_ogg_page [9, 9, 9] 7 3 1920 false false)] ∧
    create_ogg_page [9, 9, 9] 7 3 1920 false false ≠ [9, 9, 9] := by
  exact ⟨rfl, by decide⟩

theorem C2_output_is_ogg_page_witness :
    (∃ b, create_ogg_page [9, 9, 9] 7 3 1920 false false =
      create_ogg_page b 7 3 ((960 + FRAME_SIZE) % 2 ^ 64) false false) ∧
    (create_ogg_page [9, 9, 9] 7 3 1920 false false).take 4 = oggMagicBytes :=
  C2_output_is_ogg_page trivOm c2Proc "b" ⟨[], 3, 960, true, 7⟩
    (create_ogg_page [9, 9, 9] 7 3 1920 false false) rfl rfl (by decide)
    (List.mem_singleton.mpr rfl)
